import Mathlib

/-!
Shallow embedding of `src/sb-command-parser.py` (function `slackbot_command_parse`).

Python strings are embedded as `List Char`.  The returned dictionary is embedded
as `Option CommandRecord`: the empty dictionary `{}` becomes `none`, and a
populated dictionary becomes `some r`.  Every Python exception path inside the
function (shlex `ValueError`, `IndexError` on `parsed_input[i]`, `ValueError`
from `int()`) is caught by the function's own `try/except`, which returns the
still-empty dictionary; those paths are therefore embedded directly as `none`.
-/

namespace Slackbot

/-- Values stored under the keys `Priority Level` and `Percent Completion` of the
Python dictionary: integers, or the Python string that marks an absent value. -/
inductive PyVal where
  | str : List Char → PyVal
  | int : Int → PyVal
deriving DecidableEq, Repr

/-- The populated return dictionary of `slackbot_command_parse`.  The keys
`Command`, `Task Name`, `Task Description` always hold strings in the source,
so they are typed as strings here; `Priority Level` and `Percent Completion`
hold integers or the empty string, hence `PyVal`. -/
structure CommandRecord where
  command : List Char
  taskName : List Char
  taskDesc : List Char
  priorityLevel : PyVal
  percentCompletion : PyVal
deriving DecidableEq, Repr

/-- The default `begins_with` argument, `'/slackbot'`. -/
def slackbotKeyword : List Char := "/slackbot".data

/-- The literal `'create'`. -/
def cCREATE : List Char := "create".data

/-- The literal `'update'`. -/
def cUPDATE : List Char := "update".data

/-- The literal `'suspend'`. -/
def cSUSPEND : List Char := "suspend".data

/-- The literal `'abandon'`. -/
def cABANDON : List Char := "abandon".data

/-- The list `priority_level_list = [0,1,2]` from the source. -/
def priority_level_list : List Int := [0, 1, 2]

/-- The whitespace characters of Python's `shlex` lexer (`shlex.whitespace`). -/
def shlexWhitespace : List Char := [' ', '\t', '\r', '\n']

/-- States of the `shlex.read_token` automaton, restricted to the configuration
used by `shlex.split` (posix mode, `whitespace_split=True`, no comments, no
punctuation chars): between tokens, inside a word, inside single/double quotes,
and after a backslash escape seen in word position or inside double quotes. -/
inductive LexState where
  | space | word | inSingle | inDouble | escWord | escDouble
deriving DecidableEq, Repr

/-- One run of the `shlex` automaton over the remaining characters.  `tok` is
the token accumulated so far, `quoted` records whether a quote section
contributed to it (so that `''` still yields an empty token), `acc` the tokens
already emitted.  `none` embeds the `ValueError` raised on an unterminated
quote (`No closing quotation`) or a trailing escape (`No escaped character`). -/
def shlexRun : List Char → LexState → List Char → Bool → List (List Char) →
    Option (List (List Char))
  | [], .space, _, _, acc => some acc
  | [], .word, tok, quoted, acc =>
      if tok ≠ [] ∨ quoted then some (acc ++ [tok]) else some acc
  | [], .inSingle, _, _, _ => none
  | [], .inDouble, _, _, _ => none
  | [], .escWord, _, _, _ => none
  | [], .escDouble, _, _, _ => none
  | c :: cs, .space, tok, quoted, acc =>
      if c ∈ shlexWhitespace then shlexRun cs .space [] false acc
      else if c = '\\' then shlexRun cs .escWord tok quoted acc
      else if c = '\'' then shlexRun cs .inSingle tok true acc
      else if c = '"' then shlexRun cs .inDouble tok true acc
      else shlexRun cs .word (tok ++ [c]) quoted acc
  | c :: cs, .word, tok, quoted, acc =>
      if c ∈ shlexWhitespace then
        if tok ≠ [] ∨ quoted then shlexRun cs .space [] false (acc ++ [tok])
        else shlexRun cs .space [] false acc
      else if c = '\'' then shlexRun cs .inSingle tok true acc
      else if c = '"' then shlexRun cs .inDouble tok true acc
      else if c = '\\' then shlexRun cs .escWord tok quoted acc
      else shlexRun cs .word (tok ++ [c]) quoted acc
  | c :: cs, .inSingle, tok, quoted, acc =>
      if c = '\'' then shlexRun cs .word tok quoted acc
      else shlexRun cs .inSingle (tok ++ [c]) quoted acc
  | c :: cs, .inDouble, tok, quoted, acc =>
      if c = '"' then shlexRun cs .word tok quoted acc
      else if c = '\\' then shlexRun cs .escDouble tok quoted acc
      else shlexRun cs .inDouble (tok ++ [c]) quoted acc
  | c :: cs, .escWord, tok, quoted, acc =>
      shlexRun cs .word (tok ++ [c]) quoted acc
  | c :: cs, .escDouble, tok, quoted, acc =>
      if c ≠ '"' ∧ c ≠ '\\' then shlexRun cs .inDouble (tok ++ ['\\', c]) quoted acc
      else shlexRun cs .inDouble (tok ++ [c]) quoted acc

/-- Model of `shlex.split(input_line_of_text)` from line 34 of the source: `none` embeds
the `ValueError` of malformed quoting, `some tokens` the token list. -/
def tokenize (s : List Char) : Option (List (List Char)) :=
  shlexRun s .space [] false []

/-- Python `str.split(':')`: split on every colon, keeping empty fields
(so `''.split(':') == ['']` and `':'.split(':') == ['', '']`). -/
def splitColon : List Char → List (List Char)
  | [] => [[]]
  | c :: cs =>
      if c = ':' then [] :: splitColon cs
      else
        match splitColon cs with
        | [] => [[c]]
        | f :: fs => (c :: f) :: fs

/-- Code points `b` such that `b, b+1, ..., b+9` are the Unicode decimal
digits 0-9 (`Numeric_Type=Decimal`).  CPython's `int()` converts these to the
matching ASCII digits before parsing (`Py_UNICODE_TODECIMAL` inside
`_PyUnicode_TransformDecimalAndSpaceToASCII`); every decimal digit of the
Unicode database lies in one of these aligned runs of ten. -/
def pyDecimalZeroPoints : List Nat :=
  [48, 1632, 1776, 1984, 2406, 2534, 2662, 2790, 2918, 3046, 3174, 3302,
   3430, 3558, 3664, 3792, 3872, 4160, 4240, 6112, 6160, 6470, 6608, 6784,
   6800, 6992, 7088, 7232, 7248, 42528, 43216, 43264, 43472, 43504, 43600,
   44016, 65296, 66720, 68912, 69734, 69872, 69942, 70096, 70384, 70736,
   70864, 71248, 71360, 71472, 71904, 72016, 72784, 73040, 73120, 92768,
   92864, 93008, 120782, 120792, 120802, 120812, 120822, 123200, 123632,
   125264, 130032]

/-- Non-ASCII code points with the Unicode whitespace property
(`Py_UNICODE_ISSPACE`); CPython's `int()` converts each of these to a plain
space before parsing. -/
def pyHighSpaces : List Nat :=
  [133, 160, 5760, 8192, 8193, 8194, 8195, 8196, 8197, 8198, 8199, 8200,
   8201, 8202, 8232, 8233, 8239, 8287, 12288]

/-- Unicode decimal digit value of a character (`Py_UNICODE_TODECIMAL`). -/
def pyUnicodeDecimal (c : Char) : Option Nat :=
  (pyDecimalZeroPoints.find? fun b =>
    decide (b ≤ c.toNat) && decide (c.toNat ≤ b + 9)).map (fun b => c.toNat - b)

/-- The per-character step of CPython's
`_PyUnicode_TransformDecimalAndSpaceToASCII`, which `int()` applies to its
whole argument before parsing: characters below 127 are kept as they are,
non-ASCII whitespace becomes a plain space, a non-ASCII decimal digit becomes
the matching ASCII digit, and every other non-ASCII character becomes a junk
character (CPython uses `'?'`) that makes the subsequent parse fail. -/
def pyTransformChar (c : Char) : Char :=
  if c.toNat < 127 then c
  else if c.toNat ∈ pyHighSpaces then ' '
  else
    match pyUnicodeDecimal c with
    | some d => Char.ofNat (48 + d)
    | none => '?'

/-- The characters Python's `int()` strips from both ends of its transformed
argument: exactly the six ASCII whitespace characters of `Py_ISSPACE` in
`PyLong_FromString` (other ASCII control characters such as U+001C are not
stripped and make `int()` raise; non-ASCII whitespace has already been turned
into a plain space by `pyTransformChar`). -/
def pyStripChars : List Char := [' ', '\t', '\n', '\r', '\x0b', '\x0c']

/-- Strip leading and trailing whitespace, as `int()` does before parsing. -/
def pyStrip (s : List Char) : List Char :=
  ((s.dropWhile (· ∈ pyStripChars)).reverse.dropWhile (· ∈ pyStripChars)).reverse

/-- Numeric value of an ASCII digit. -/
def digitVal (c : Char) : Nat := c.toNat - 48

/-- Continue parsing a digit string after its first digit: Python allows a
single underscore between two digits (`int('1_0') == 10`) and nothing else. -/
def pyDigitsRest : List Char → Nat → Option Nat
  | [], acc => some acc
  | ['_'], _ => none
  | '_' :: c :: cs, acc =>
      if c.isDigit then pyDigitsRest cs (acc * 10 + digitVal c) else none
  | c :: cs, acc =>
      if c.isDigit then pyDigitsRest cs (acc * 10 + digitVal c) else none

/-- Parse a non-empty digit string (with Python's underscore rule). -/
def pyDigits : List Char → Option Nat
  | [] => none
  | c :: cs => if c.isDigit then pyDigitsRest cs (digitVal c) else none

/-- Python `int(s)` on a string: transform every character as CPython does
(`pyTransformChar`), strip whitespace, then parse an optional sign followed by
a digit string with the underscore rule.  `none` embeds the `ValueError`
raised on anything else. -/
def pyIntOfStr (s : List Char) : Option Int :=
  match pyStrip (s.map pyTransformChar) with
  | '+' :: cs => (pyDigits cs).map (fun n => (n : Int))
  | '-' :: cs => (pyDigits cs).map (fun n => -(n : Int))
  | cs => (pyDigits cs).map (fun n => (n : Int))

/-- Lines 53-61 of the source: the checks of the `create` branch on
`param_list`.  Field count must be 4, task name and description non-empty,
priority level an integer in `priority_level_list`, percent completion an
integer in `range(0,101)`.  Every failed check and every `int()` exception
leaves the dictionary empty, i.e. yields `none`. -/
def createFields (param_list : List (List Char)) : Option CommandRecord :=
  match param_list with
  | [p0, p1, p2, p3] =>
      if p0.length > 0 ∧ p1.length > 0 then
        match pyIntOfStr p2 with
        | none => none
        | some pl =>
            if pl ∈ priority_level_list then
              match pyIntOfStr p3 with
              | none => none
              | some pc =>
                  if 0 ≤ pc ∧ pc < 101 then
                    some ⟨cCREATE, p0, p1, PyVal.int pl, PyVal.int pc⟩
                  else none
            else none
      else none
  | _ => none

/-- Lines 45-61 of the source: the `create` branch, applied to
`parsed_input[2]` (`param_list = parsed_input[2].split(':')`). -/
def createBranch (t2 : List Char) : Option CommandRecord :=
  createFields (splitColon t2)

/-- Lines 68-86 of the source: the checks of the `update` branch on
`param_list`.  Field count must be 4, task name non-empty, percent completion
an integer in `range(0,101)`; the priority field may be empty (then the record
stores the empty string), and if non-empty it must be an integer in
`priority_level_list` or no record is produced at all. -/
def updateFields (param_list : List (List Char)) : Option CommandRecord :=
  match param_list with
  | [p0, p1, p2, p3] =>
      if p0.length > 0 then
        match pyIntOfStr p3 with
        | none => none
        | some pc =>
            if 0 ≤ pc ∧ pc < 101 then
              if p2.length > 0 then
                match pyIntOfStr p2 with
                | none => none
                | some pl =>
                    if pl ∈ priority_level_list then
                      some ⟨cUPDATE, p0, p1, PyVal.int pl, PyVal.int pc⟩
                    else none
              else
                some ⟨cUPDATE, p0, p1, PyVal.str [], PyVal.int pc⟩
            else none
      else none
  | _ => none

/-- Lines 63-86 of the source: the `update` branch, applied to
`parsed_input[2]`. -/
def updateBranch (t2 : List Char) : Option CommandRecord :=
  updateFields (splitColon t2)

/-- Lines 93-100 and 107-114 of the source: the checks of the `suspend` and
`abandon` branches (textually identical up to the command name) on
`param_list`.  Field count must be 1 and the task name non-empty; description,
priority and percent are set to the empty string. -/
def suspendAbandonFields (cmd : List Char) (param_list : List (List Char)) :
    Option CommandRecord :=
  match param_list with
  | [p0] =>
      if p0.length > 0 then
        some ⟨cmd, p0, [], PyVal.str [], PyVal.str []⟩
      else none
  | _ => none

/-- Lines 88-114 of the source: the `suspend`/`abandon` branch, applied to
`parsed_input[2]`. -/
def suspendAbandonBranch (cmd t2 : List Char) : Option CommandRecord :=
  suspendAbandonFields cmd (splitColon t2)

/-- Lines 41-116 of the source, applied to the token list produced by
`shlex.split`.  Fewer than three tokens make some `parsed_input[i]` raise
`IndexError` before any record is built (or, when the second token is not a
known command, reach `return ret_dict` with the dictionary still empty); both
outcomes are the empty dictionary, `none`.  The four command `if` blocks are
mutually exclusive because `parsed_input[1]` equals at most one command word,
so they are embedded as a cascade. -/
def parseTokens (tokens : List (List Char)) (begins_with : List Char) :
    Option CommandRecord :=
  match tokens with
  | t0 :: t1 :: t2 :: _ =>
      if t0 = begins_with then
        if t1 = cCREATE then createBranch t2
        else if t1 = cUPDATE then updateBranch t2
        else if t1 = cSUSPEND then suspendAbandonBranch cSUSPEND t2
        else if t1 = cABANDON then suspendAbandonBranch cABANDON t2
        else none
      else none
  | _ => none

/-- The function `slackbot_command_parse(input_line_of_text, begins_with)`: tokenize, then
dispatch.  A tokenization error is caught by the `try/except` and returns the
empty dictionary. -/
def slackbot_command_parse (input_line_of_text begins_with : List Char) :
    Option CommandRecord :=
  match tokenize input_line_of_text with
  | none => none
  | some tokens => parseTokens tokens begins_with

/-- The section-4 table of the spec, as a predicate on returned records.  This
definition follows the spec's words (it is the refinement target the parser's
output is compared against, not a translation of the code): per command, the
required fields and their domains, with `PyVal.str []` as the absent marker. -/
def specValidRecord (r : CommandRecord) : Prop :=
  (r.command = cCREATE ∧ r.taskName ≠ [] ∧ r.taskDesc ≠ [] ∧
    (∃ pl ∈ priority_level_list, r.priorityLevel = PyVal.int pl) ∧
    (∃ pc : Int, r.percentCompletion = PyVal.int pc ∧ 0 ≤ pc ∧ pc ≤ 100)) ∨
  (r.command = cUPDATE ∧ r.taskName ≠ [] ∧
    (r.priorityLevel = PyVal.str [] ∨
      ∃ pl ∈ priority_level_list, r.priorityLevel = PyVal.int pl) ∧
    (∃ pc : Int, r.percentCompletion = PyVal.int pc ∧ 0 ≤ pc ∧ pc ≤ 100)) ∨
  ((r.command = cSUSPEND ∨ r.command = cABANDON) ∧ r.taskName ≠ [] ∧
    r.taskDesc = [] ∧ r.priorityLevel = PyVal.str [] ∧
    r.percentCompletion = PyVal.str [])

-- sanity checks against the Python demonstration driver
example :
    slackbot_command_parse "/slackbot create myTaskA:'plain vanilla task':1:10".data
      slackbotKeyword =
    some ⟨cCREATE, "myTaskA".data, "plain vanilla task".data,
      PyVal.int 1, PyVal.int 10⟩ := by decide

example :
    slackbot_command_parse "/slackbot update myTaskA:::40".data slackbotKeyword =
    some ⟨cUPDATE, "myTaskA".data, [], PyVal.str [], PyVal.int 40⟩ := by decide

example :
    slackbot_command_parse "/slackbot suspend myTaskB".data slackbotKeyword =
    some ⟨cSUSPEND, "myTaskB".data, [], PyVal.str [], PyVal.str []⟩ := by decide

example :
    slackbot_command_parse "/slackbott create myTaskA:'plain vanilla task':1:10".data
      slackbotKeyword = none := by decide

example :
    slackbot_command_parse "/slackbot create myTaskA:'plain vanilla task':3:10".data
      slackbotKeyword = none := by decide

example :
    slackbot_command_parse "/slackbot create myTaskA:'plain vanilla task':1:200".data
      slackbotKeyword = none := by decide

example :
    slackbot_command_parse "/slackbot suspend myTaskB:::".data slackbotKeyword =
      none := by decide

example :
    slackbot_command_parse "/slackbot create myTaskA:'plain vanilla task\":1:10".data
      slackbotKeyword = none := by decide

example :
    slackbot_command_parse "/slackbot update myTaskA:\"new description\"::40".data
      slackbotKeyword =
    some ⟨cUPDATE, "myTaskA".data, "new description".data,
      PyVal.str [], PyVal.int 40⟩ := by decide

-- CPython accepts Unicode decimal digits and Unicode whitespace in int()
-- (int('２') == 2, int('\xa010') == 10) but not ASCII control characters
-- such as U+001C; the model agrees
example : pyIntOfStr "\uFF12".data = some 2 := by decide

example : pyIntOfStr "\u00A010".data = some 10 := by decide

example : pyIntOfStr "\x1c10".data = none := by decide

example :
    slackbot_command_parse "/slackbot create a:b:\uFF12:10".data slackbotKeyword =
    some ⟨cCREATE, "a".data, "b".data, PyVal.int 2, PyVal.int 10⟩ := by decide

example :
    slackbot_command_parse "/slackbot update a:d:\uFF12:10".data slackbotKeyword =
    some ⟨cUPDATE, "a".data, "d".data, PyVal.int 2, PyVal.int 10⟩ := by decide

/-! ### Helper lemmas -/

theorem splitColon_ne_nil (l : List Char) : splitColon l ≠ [] := by
  induction l with
  | nil => simp [splitColon]
  | cons c cs ih =>
      simp only [splitColon]
      split
      · simp
      · split
        · simp
        · simp

theorem splitColon_no_colon (l : List Char) : ∀ f ∈ splitColon l, ':' ∉ f := by
  induction l with
  | nil =>
      intro f hf
      simp [splitColon] at hf
      simp [hf]
  | cons c cs ih =>
      intro f hf
      simp only [splitColon] at hf
      by_cases hc : c = ':'
      · rw [if_pos hc] at hf
        rcases List.mem_cons.mp hf with h | h
        · simp [h]
        · exact ih f h
      · rw [if_neg hc] at hf
        cases hsp : splitColon cs with
        | nil => exact absurd hsp (splitColon_ne_nil cs)
        | cons g gs =>
            rw [hsp] at hf
            rcases List.mem_cons.mp hf with h | h
            · subst h
              intro hmem
              rcases List.mem_cons.mp hmem with h' | h'
              · exact hc h'.symm
              · exact ih g (by rw [hsp]; exact List.mem_cons_self g gs) h'
            · exact ih f (by rw [hsp]; exact List.mem_cons.mpr (Or.inr h))

theorem parse_eq_parseTokens (input begins_with : List Char)
    (ts : List (List Char)) (h : tokenize input = some ts) :
    slackbot_command_parse input begins_with = parseTokens ts begins_with := by
  unfold slackbot_command_parse
  rw [h]

theorem parse_eq_none_of_tokenize_none (input begins_with : List Char)
    (h : tokenize input = none) :
    slackbot_command_parse input begins_with = none := by
  unfold slackbot_command_parse
  rw [h]

theorem parseTokens_create (bw t2 : List Char) (rest : List (List Char)) :
    parseTokens (bw :: cCREATE :: t2 :: rest) bw = createBranch t2 := by
  simp [parseTokens]

theorem parseTokens_update (bw t2 : List Char) (rest : List (List Char)) :
    parseTokens (bw :: cUPDATE :: t2 :: rest) bw = updateBranch t2 := by
  simp [parseTokens, (by decide : cUPDATE ≠ cCREATE)]

theorem parseTokens_suspend (bw t2 : List Char) (rest : List (List Char)) :
    parseTokens (bw :: cSUSPEND :: t2 :: rest) bw =
      suspendAbandonBranch cSUSPEND t2 := by
  simp [parseTokens, (by decide : cSUSPEND ≠ cCREATE),
    (by decide : cSUSPEND ≠ cUPDATE)]

theorem parseTokens_abandon (bw t2 : List Char) (rest : List (List Char)) :
    parseTokens (bw :: cABANDON :: t2 :: rest) bw =
      suspendAbandonBranch cABANDON t2 := by
  simp [parseTokens, (by decide : cABANDON ≠ cCREATE),
    (by decide : cABANDON ≠ cUPDATE), (by decide : cABANDON ≠ cSUSPEND)]

theorem parseTokens_cons_eq (t0 t1 t2 : List Char) (tl : List (List Char))
    (bw : List Char) :
    parseTokens (t0 :: t1 :: t2 :: tl) bw =
      (if t0 = bw then
        (if t1 = cCREATE then createBranch t2
         else if t1 = cUPDATE then updateBranch t2
         else if t1 = cSUSPEND then suspendAbandonBranch cSUSPEND t2
         else if t1 = cABANDON then suspendAbandonBranch cABANDON t2
         else none)
      else none) := rfl

theorem parseTokens_some (ts : List (List Char)) (bw : List Char)
    (r : CommandRecord) (h : parseTokens ts bw = some r) :
    ∃ t1 t2 rest, ts = bw :: t1 :: t2 :: rest ∧
      ((t1 = cCREATE ∧ createBranch t2 = some r) ∨
       (t1 = cUPDATE ∧ updateBranch t2 = some r) ∨
       (t1 = cSUSPEND ∧ suspendAbandonBranch cSUSPEND t2 = some r) ∨
       (t1 = cABANDON ∧ suspendAbandonBranch cABANDON t2 = some r)) := by
  match ts with
  | [] | [_] | [_, _] => simp [parseTokens] at h
  | t0 :: t1 :: t2 :: rest =>
    have hif : (if t0 = bw then
          (if t1 = cCREATE then createBranch t2
           else if t1 = cUPDATE then updateBranch t2
           else if t1 = cSUSPEND then suspendAbandonBranch cSUSPEND t2
           else if t1 = cABANDON then suspendAbandonBranch cABANDON t2
           else none)
        else none) = some r := h
    clear h
    split at hif
    next ht0 =>
      subst ht0
      split at hif
      next h1 => exact ⟨t1, t2, rest, rfl, Or.inl ⟨h1, hif⟩⟩
      next =>
        split at hif
        next h1 => exact ⟨t1, t2, rest, rfl, Or.inr (Or.inl ⟨h1, hif⟩)⟩
        next =>
          split at hif
          next h1 =>
            exact ⟨t1, t2, rest, rfl, Or.inr (Or.inr (Or.inl ⟨h1, hif⟩))⟩
          next =>
            split at hif
            next h1 =>
              exact ⟨t1, t2, rest, rfl, Or.inr (Or.inr (Or.inr ⟨h1, hif⟩))⟩
            next => simp at hif
    next => simp at hif

theorem createFields_some (ps : List (List Char)) (r : CommandRecord)
    (h : createFields ps = some r) :
    ∃ p0 p1 p2 p3 pl pc,
      ps = [p0, p1, p2, p3] ∧ p0 ≠ [] ∧ p1 ≠ [] ∧
      pyIntOfStr p2 = some pl ∧ pl ∈ priority_level_list ∧
      pyIntOfStr p3 = some pc ∧ 0 ≤ pc ∧ pc < 101 ∧
      r = ⟨cCREATE, p0, p1, PyVal.int pl, PyVal.int pc⟩ := by
  match ps with
  | [] | [_] | [_, _] | [_, _, _] => simp [createFields] at h
  | _ :: _ :: _ :: _ :: _ :: _ => simp [createFields] at h
  | [p0, p1, p2, p3] =>
    simp only [createFields] at h
    split at h
    next hlen =>
      split at h
      next hp2 => simp at h
      next pl hp2 =>
        split at h
        next hmem =>
          split at h
          next hp3 => simp at h
          next pc hp3 =>
            split at h
            next hrange =>
              exact ⟨p0, p1, p2, p3, pl, pc, rfl, List.length_pos.mp hlen.1,
                List.length_pos.mp hlen.2, hp2, hmem, hp3, hrange.1, hrange.2,
                (Option.some.inj h).symm⟩
            next => simp at h
        next => simp at h
    next => simp at h

theorem createFields_eq_some (p0 p1 p2 p3 : List Char) (pl pc : Int)
    (h0 : p0 ≠ []) (h1 : p1 ≠ []) (hp2 : pyIntOfStr p2 = some pl)
    (hmem : pl ∈ priority_level_list) (hp3 : pyIntOfStr p3 = some pc)
    (hlo : 0 ≤ pc) (hhi : pc < 101) :
    createFields [p0, p1, p2, p3] =
      some ⟨cCREATE, p0, p1, PyVal.int pl, PyVal.int pc⟩ := by
  simp only [createFields]
  rw [if_pos ⟨List.length_pos.mpr h0, List.length_pos.mpr h1⟩]
  simp only [hp2]
  rw [if_pos hmem]
  simp only [hp3]
  rw [if_pos ⟨hlo, hhi⟩]

theorem updateFields_some (ps : List (List Char)) (r : CommandRecord)
    (h : updateFields ps = some r) :
    ∃ p0 p1 p2 p3 pc,
      ps = [p0, p1, p2, p3] ∧ p0 ≠ [] ∧
      pyIntOfStr p3 = some pc ∧ 0 ≤ pc ∧ pc < 101 ∧
      ((p2 = [] ∧ r = ⟨cUPDATE, p0, p1, PyVal.str [], PyVal.int pc⟩) ∨
       (∃ pl, p2 ≠ [] ∧ pyIntOfStr p2 = some pl ∧ pl ∈ priority_level_list ∧
         r = ⟨cUPDATE, p0, p1, PyVal.int pl, PyVal.int pc⟩)) := by
  match ps with
  | [] | [_] | [_, _] | [_, _, _] => simp [updateFields] at h
  | _ :: _ :: _ :: _ :: _ :: _ => simp [updateFields] at h
  | [p0, p1, p2, p3] =>
    simp only [updateFields] at h
    split at h
    next hlen =>
      split at h
      next hp3 => simp at h
      next pc hp3 =>
        split at h
        next hrange =>
          split at h
          next hlen2 =>
            split at h
            next hp2 => simp at h
            next pl hp2 =>
              split at h
              next hmem =>
                exact ⟨p0, p1, p2, p3, pc, rfl, List.length_pos.mp hlen,
                  hp3, hrange.1, hrange.2,
                  Or.inr ⟨pl, List.length_pos.mp hlen2, hp2, hmem,
                    (Option.some.inj h).symm⟩⟩
              next => simp at h
          next hlen2 =>
            refine ⟨p0, p1, p2, p3, pc, rfl, List.length_pos.mp hlen,
              hp3, hrange.1, hrange.2,
              Or.inl ⟨?_, (Option.some.inj h).symm⟩⟩
            by_contra hne
            exact hlen2 (List.length_pos.mpr hne)
        next => simp at h
    next => simp at h

theorem updateFields_eq_some_absent (p0 p1 p3 : List Char) (pc : Int)
    (h0 : p0 ≠ []) (hp3 : pyIntOfStr p3 = some pc)
    (hlo : 0 ≤ pc) (hhi : pc < 101) :
    updateFields [p0, p1, [], p3] =
      some ⟨cUPDATE, p0, p1, PyVal.str [], PyVal.int pc⟩ := by
  simp only [updateFields]
  rw [if_pos (List.length_pos.mpr h0)]
  simp only [hp3]
  rw [if_pos ⟨hlo, hhi⟩]
  simp

theorem updateFields_eq_some_priority (p0 p1 p2 p3 : List Char) (pl pc : Int)
    (h0 : p0 ≠ []) (h2 : p2 ≠ []) (hp2 : pyIntOfStr p2 = some pl)
    (hmem : pl ∈ priority_level_list) (hp3 : pyIntOfStr p3 = some pc)
    (hlo : 0 ≤ pc) (hhi : pc < 101) :
    updateFields [p0, p1, p2, p3] =
      some ⟨cUPDATE, p0, p1, PyVal.int pl, PyVal.int pc⟩ := by
  simp only [updateFields]
  rw [if_pos (List.length_pos.mpr h0)]
  simp only [hp3]
  rw [if_pos ⟨hlo, hhi⟩, if_pos (List.length_pos.mpr h2)]
  simp only [hp2]
  rw [if_pos hmem]

theorem suspendAbandonFields_some (cmd : List Char) (ps : List (List Char))
    (r : CommandRecord) (h : suspendAbandonFields cmd ps = some r) :
    ∃ p0, ps = [p0] ∧ p0 ≠ [] ∧
      r = ⟨cmd, p0, [], PyVal.str [], PyVal.str []⟩ := by
  match ps with
  | [] => simp [suspendAbandonFields] at h
  | _ :: _ :: _ => simp [suspendAbandonFields] at h
  | [p0] =>
    simp only [suspendAbandonFields] at h
    split at h
    next hlen =>
      exact ⟨p0, rfl, List.length_pos.mp hlen, (Option.some.inj h).symm⟩
    next => simp at h

theorem suspendAbandonFields_eq_some (cmd p0 : List Char) (h0 : p0 ≠ []) :
    suspendAbandonFields cmd [p0] =
      some ⟨cmd, p0, [], PyVal.str [], PyVal.str []⟩ := by
  simp only [suspendAbandonFields]
  rw [if_pos (List.length_pos.mpr h0)]

/-! ### Claims -/

/-- C1: for every input line, the result of the parser is either the empty
result or a record that is fully valid for its command: every field value in a
returned non-empty record satisfies the domain constraint stated for its
command in the section-4 table (`specValidRecord`); no partial or garbage
record is ever returned. -/
theorem c1_result_fully_valid (input : List Char) (r : CommandRecord)
    (h : slackbot_command_parse input slackbotKeyword = some r) :
    specValidRecord r := by
  cases htok : tokenize input with
  | none =>
      rw [parse_eq_none_of_tokenize_none input slackbotKeyword htok] at h
      exact absurd h (by simp)
  | some ts =>
      rw [parse_eq_parseTokens input slackbotKeyword ts htok] at h
      obtain ⟨t1, t2, rest, hts, hcase⟩ := parseTokens_some ts slackbotKeyword r h
      rcases hcase with ⟨h1, hb⟩ | ⟨h1, hb⟩ | ⟨h1, hb⟩ | ⟨h1, hb⟩
      · obtain ⟨p0, p1, p2, p3, pl, pc, hqs, h0, h1', hp2, hmem, hp3, hlo, hhi, hr⟩ :=
          createFields_some (splitColon t2) r hb
        subst hr
        exact Or.inl ⟨rfl, h0, h1', ⟨pl, hmem, rfl⟩, ⟨pc, rfl, hlo, by omega⟩⟩
      · obtain ⟨p0, p1, p2, p3, pc, hqs, h0, hp3, hlo, hhi, hcase2⟩ :=
          updateFields_some (splitColon t2) r hb
        rcases hcase2 with ⟨hp2, hr⟩ | ⟨pl, hp2ne, hp2, hmem, hr⟩
        · subst hr
          exact Or.inr (Or.inl ⟨rfl, h0, Or.inl rfl, ⟨pc, rfl, hlo, by omega⟩⟩)
        · subst hr
          exact Or.inr (Or.inl ⟨rfl, h0, Or.inr ⟨pl, hmem, rfl⟩,
            ⟨pc, rfl, hlo, by omega⟩⟩)
      · obtain ⟨p0, hqs, h0, hr⟩ :=
          suspendAbandonFields_some cSUSPEND (splitColon t2) r hb
        subst hr
        exact Or.inr (Or.inr ⟨Or.inl rfl, h0, rfl, rfl, rfl⟩)
      · obtain ⟨p0, hqs, h0, hr⟩ :=
          suspendAbandonFields_some cABANDON (splitColon t2) r hb
        subst hr
        exact Or.inr (Or.inr ⟨Or.inr rfl, h0, rfl, rfl, rfl⟩)

theorem c1_result_fully_valid_witness :
    specValidRecord ⟨cCREATE, "myTaskA".data, "plain vanilla task".data,
      PyVal.int 1, PyVal.int 10⟩ :=
  c1_result_fully_valid
    "/slackbot create myTaskA:'plain vanilla task':1:10".data _ (by decide)

/-- C2: on every input string (arbitrary, untrusted text) the parser never
raises a propagating fault: it always terminates by returning a value, either
a record or the empty result.  The embedding is a total function in which
every exception path of the source is the `none` result. -/
theorem c2_parse_total (input begins_with : List Char) :
    slackbot_command_parse input begins_with = none ∨
    ∃ r, slackbot_command_parse input begins_with = some r := by
  cases h : slackbot_command_parse input begins_with with
  | none => exact Or.inl rfl
  | some r => exact Or.inr ⟨r, rfl⟩

/-- C3: a line tokenizing to the prefix, `create`, and a parameter token whose
colon-split gives exactly four fields with non-empty name and description and
integer priority in {0,1,2} and integer percent in [0,100] yields exactly that
record; a create line whose field count differs from 4, or with an empty
required field, a non-numeric numeric field, or an out-of-range value, yields
the empty result. -/
theorem c3_create_spec (input t2 : List Char) (rest : List (List Char))
    (htok : tokenize input = some (slackbotKeyword :: cCREATE :: t2 :: rest)) :
    (∀ p0 p1 p2 p3, splitColon t2 = [p0, p1, p2, p3] →
      (∀ pl pc, p0 ≠ [] → p1 ≠ [] →
        pyIntOfStr p2 = some pl → pl ∈ priority_level_list →
        pyIntOfStr p3 = some pc → 0 ≤ pc → pc ≤ 100 →
        slackbot_command_parse input slackbotKeyword =
          some ⟨cCREATE, p0, p1, PyVal.int pl, PyVal.int pc⟩) ∧
      ((p0 = [] ∨ p1 = [] ∨ pyIntOfStr p2 = none ∨
        (∃ pl, pyIntOfStr p2 = some pl ∧ pl ∉ priority_level_list) ∨
        pyIntOfStr p3 = none ∨
        (∃ pc, pyIntOfStr p3 = some pc ∧ ¬(0 ≤ pc ∧ pc ≤ 100))) →
        slackbot_command_parse input slackbotKeyword = none)) ∧
    ((splitColon t2).length ≠ 4 →
      slackbot_command_parse input slackbotKeyword = none) := by
  have hparse : slackbot_command_parse input slackbotKeyword = createBranch t2 := by
    rw [parse_eq_parseTokens input slackbotKeyword _ htok, parseTokens_create]
  constructor
  · intro p0 p1 p2 p3 hs
    constructor
    · intro pl pc h0 h1 hp2 hmem hp3 hlo hhi
      rw [hparse]
      unfold createBranch
      rw [hs]
      exact createFields_eq_some p0 p1 p2 p3 pl pc h0 h1 hp2 hmem hp3 hlo (by omega)
    · intro hfail
      rw [hparse]
      cases hcb : createBranch t2 with
      | none => rfl
      | some r =>
          exfalso
          obtain ⟨q0, q1, q2, q3, pl, pc, hqs, hq0, hq1, hq2, hqmem, hq3, hqlo,
            hqhi, _⟩ := createFields_some (splitColon t2) r hcb
          rw [hs] at hqs
          obtain ⟨e0, e1, e2, e3⟩ : p0 = q0 ∧ p1 = q1 ∧ p2 = q2 ∧ p3 = q3 := by
            simpa using hqs
          subst e0; subst e1; subst e2; subst e3
          rcases hfail with hcon | hcon | hcon | ⟨pl', hpl', hplmem⟩ | hcon |
            ⟨pc', hpc', hrange⟩
          · exact hq0 hcon
          · exact hq1 hcon
          · rw [hq2] at hcon; exact Option.noConfusion hcon
          · rw [hq2] at hpl'
            exact hplmem ((Option.some.inj hpl') ▸ hqmem)
          · rw [hq3] at hcon; exact Option.noConfusion hcon
          · rw [hq3] at hpc'
            cases Option.some.inj hpc'
            exact hrange ⟨hqlo, by omega⟩
  · intro hlen
    rw [hparse]
    cases hcb : createBranch t2 with
    | none => rfl
    | some r =>
        exfalso
        obtain ⟨q0, q1, q2, q3, pl, pc, hqs, _⟩ :=
          createFields_some (splitColon t2) r hcb
        rw [hqs] at hlen
        simp at hlen

theorem c3_create_spec_witness :
    slackbot_command_parse
      "/slackbot create myTaskB:'super duper task':2:5".data slackbotKeyword =
    some ⟨cCREATE, "myTaskB".data, "super duper task".data,
      PyVal.int 2, PyVal.int 5⟩ :=
  ((c3_create_spec "/slackbot create myTaskB:'super duper task':2:5".data
      "myTaskB:super duper task:2:5".data [] (by decide)).1
    "myTaskB".data "super duper task".data "2".data "5".data (by decide)).1
    2 5 (by decide) (by decide) (by decide) (by decide) (by decide) (by decide)
    (by decide)

/-- C4: for an `update` line whose parameter token splits into exactly four
fields with a non-empty name and an integer percent in [0,100]: an empty
priority field yields a record with the absent priority marker and the
(possibly empty) description; a non-empty priority field must parse as an
integer in {0,1,2}, and otherwise the whole parse returns the empty result,
never a partial record. -/
theorem c4_update_spec (input t2 : List Char) (rest : List (List Char))
    (htok : tokenize input = some (slackbotKeyword :: cUPDATE :: t2 :: rest))
    (p0 p1 p2 p3 : List Char) (hs : splitColon t2 = [p0, p1, p2, p3])
    (h0 : p0 ≠ []) (pc : Int) (hp3 : pyIntOfStr p3 = some pc)
    (hlo : 0 ≤ pc) (hhi : pc ≤ 100) :
    (p2 = [] →
      slackbot_command_parse input slackbotKeyword =
        some ⟨cUPDATE, p0, p1, PyVal.str [], PyVal.int pc⟩) ∧
    (p2 ≠ [] →
      (∀ pl, pyIntOfStr p2 = some pl → pl ∈ priority_level_list →
        slackbot_command_parse input slackbotKeyword =
          some ⟨cUPDATE, p0, p1, PyVal.int pl, PyVal.int pc⟩) ∧
      ((pyIntOfStr p2 = none ∨
        (∃ pl, pyIntOfStr p2 = some pl ∧ pl ∉ priority_level_list)) →
        slackbot_command_parse input slackbotKeyword = none)) := by
  have hparse : slackbot_command_parse input slackbotKeyword = updateBranch t2 := by
    rw [parse_eq_parseTokens input slackbotKeyword _ htok, parseTokens_update]
  constructor
  · intro hp2
    subst hp2
    rw [hparse]
    unfold updateBranch
    rw [hs]
    exact updateFields_eq_some_absent p0 p1 p3 pc h0 hp3 hlo (by omega)
  · intro hp2ne
    constructor
    · intro pl hp2 hmem
      rw [hparse]
      unfold updateBranch
      rw [hs]
      exact updateFields_eq_some_priority p0 p1 p2 p3 pl pc h0 hp2ne hp2 hmem
        hp3 hlo (by omega)
    · intro hfail
      rw [hparse]
      cases hcb : updateBranch t2 with
      | none => rfl
      | some r =>
          exfalso
          obtain ⟨q0, q1, q2, q3, pc', hqs, hq0, hq3, hqlo, hqhi, hcase2⟩ :=
            updateFields_some (splitColon t2) r hcb
          rw [hs] at hqs
          obtain ⟨e0, e1, e2, e3⟩ : p0 = q0 ∧ p1 = q1 ∧ p2 = q2 ∧ p3 = q3 := by
            simpa using hqs
          subst e0; subst e1; subst e2; subst e3
          rcases hcase2 with ⟨hq2, _⟩ | ⟨pl, _, hq2, hqmem, _⟩
          · exact hp2ne hq2
          · rcases hfail with hcon | ⟨pl', hpl', hplmem⟩
            · rw [hq2] at hcon; exact Option.noConfusion hcon
            · rw [hq2] at hpl'
              exact hplmem ((Option.some.inj hpl') ▸ hqmem)

theorem c4_update_spec_witness :
    slackbot_command_parse "/slackbot update myTaskA:::40".data slackbotKeyword =
    some ⟨cUPDATE, "myTaskA".data, [], PyVal.str [], PyVal.int 40⟩ :=
  (c4_update_spec "/slackbot update myTaskA:::40".data "myTaskA:::40".data []
    (by decide) "myTaskA".data [] [] "40".data (by decide) (by decide) 40
    (by decide) (by decide) (by decide)).1 (by decide)

/-- C5: for a `suspend` or `abandon` line, a record is returned exactly when
the parameter token splits on `:` into exactly one field and that field (the
task name) is non-empty; the record has the task name set and description,
priority, percent all absent/empty; extra colon-separated fields or an empty
task name yield the empty result. -/
theorem c5_suspend_abandon_spec (input t2 cmd : List Char)
    (rest : List (List Char)) (hcmd : cmd = cSUSPEND ∨ cmd = cABANDON)
    (htok : tokenize input = some (slackbotKeyword :: cmd :: t2 :: rest)) :
    (∀ p0, splitColon t2 = [p0] →
      (p0 ≠ [] →
        slackbot_command_parse input slackbotKeyword =
          some ⟨cmd, p0, [], PyVal.str [], PyVal.str []⟩) ∧
      (p0 = [] → slackbot_command_parse input slackbotKeyword = none)) ∧
    ((splitColon t2).length ≠ 1 →
      slackbot_command_parse input slackbotKeyword = none) := by
  have hparse : slackbot_command_parse input slackbotKeyword =
      suspendAbandonBranch cmd t2 := by
    rcases hcmd with hc | hc <;> subst hc
    · rw [parse_eq_parseTokens input slackbotKeyword _ htok, parseTokens_suspend]
    · rw [parse_eq_parseTokens input slackbotKeyword _ htok, parseTokens_abandon]
  constructor
  · intro p0 hs
    constructor
    · intro h0
      rw [hparse]
      unfold suspendAbandonBranch
      rw [hs]
      exact suspendAbandonFields_eq_some cmd p0 h0
    · intro h0
      rw [hparse]
      cases hcb : suspendAbandonBranch cmd t2 with
      | none => rfl
      | some r =>
          exfalso
          obtain ⟨q0, hqs, hq0, _⟩ :=
            suspendAbandonFields_some cmd (splitColon t2) r hcb
          rw [hs] at hqs
          have : p0 = q0 := by simpa using hqs
          exact hq0 (this ▸ h0)
  · intro hlen
    rw [hparse]
    cases hcb : suspendAbandonBranch cmd t2 with
    | none => rfl
    | some r =>
        exfalso
        obtain ⟨q0, hqs, _, _⟩ :=
          suspendAbandonFields_some cmd (splitColon t2) r hcb
        rw [hqs] at hlen
        simp at hlen

theorem c5_suspend_abandon_spec_witness :
    slackbot_command_parse "/slackbot suspend myTaskB".data slackbotKeyword =
    some ⟨cSUSPEND, "myTaskB".data, [], PyVal.str [], PyVal.str []⟩ :=
  ((c5_suspend_abandon_spec "/slackbot suspend myTaskB".data "myTaskB".data
      cSUSPEND [] (Or.inl rfl) (by decide)).1 "myTaskB".data (by decide)).1
    (by decide)

/-- C6: in every returned record the omitted `Priority Level` and
`Percent Completion` are the absent marker `PyVal.str []`, a value distinct
from every integer (in particular from zero); those two fields never hold any
other string, so the marker cannot be conflated with a real value.  Only the
description field carries the empty string as a legitimate explicit value: a
`create` record never has an empty description, so an empty description occurs
either as `update`'s explicit empty value or as the field-not-applicable
representation of `suspend`/`abandon` records, the two being told apart by the
`Command` field. -/
theorem c6_absent_marker (input : List Char) (r : CommandRecord)
    (h : slackbot_command_parse input slackbotKeyword = some r) :
    (∀ z : Int, (PyVal.str [] : PyVal) ≠ PyVal.int z) ∧
    (r.priorityLevel = PyVal.str [] ∨
      ∃ pl ∈ priority_level_list, r.priorityLevel = PyVal.int pl) ∧
    (r.percentCompletion = PyVal.str [] ∨
      ∃ pc : Int, r.percentCompletion = PyVal.int pc) ∧
    ((r.command = cSUSPEND ∨ r.command = cABANDON) →
      r.taskDesc = [] ∧ r.priorityLevel = PyVal.str [] ∧
      r.percentCompletion = PyVal.str []) ∧
    (r.command = cCREATE →
      r.taskDesc ≠ [] ∧ ∃ pl, r.priorityLevel = PyVal.int pl) := by
  refine ⟨fun z hz => PyVal.noConfusion hz, ?_⟩
  cases htok : tokenize input with
  | none =>
      rw [parse_eq_none_of_tokenize_none input slackbotKeyword htok] at h
      exact absurd h (by simp)
  | some ts =>
      rw [parse_eq_parseTokens input slackbotKeyword ts htok] at h
      obtain ⟨t1, t2, rest, hts, hcase⟩ := parseTokens_some ts slackbotKeyword r h
      rcases hcase with ⟨h1, hb⟩ | ⟨h1, hb⟩ | ⟨h1, hb⟩ | ⟨h1, hb⟩
      · obtain ⟨p0, p1, p2, p3, pl, pc, hqs, h0, h1', hp2, hmem, hp3, hlo, hhi, hr⟩ :=
          createFields_some (splitColon t2) r hb
        subst hr
        exact ⟨Or.inr ⟨pl, hmem, rfl⟩, Or.inr ⟨pc, rfl⟩,
          fun hc => hc.elim
            (fun hx => absurd hx (by decide : ¬(cCREATE = cSUSPEND)))
            (fun hx => absurd hx (by decide : ¬(cCREATE = cABANDON))),
          fun _ => ⟨h1', pl, rfl⟩⟩
      · obtain ⟨p0, p1, p2, p3, pc, hqs, h0, hp3, hlo, hhi, hcase2⟩ :=
          updateFields_some (splitColon t2) r hb
        rcases hcase2 with ⟨hp2, hr⟩ | ⟨pl, hp2ne, hp2, hmem, hr⟩
        · subst hr
          exact ⟨Or.inl rfl, Or.inr ⟨pc, rfl⟩,
            fun hc => hc.elim
              (fun hx => absurd hx (by decide : ¬(cUPDATE = cSUSPEND)))
              (fun hx => absurd hx (by decide : ¬(cUPDATE = cABANDON))),
            fun hx => absurd hx (by decide : ¬(cUPDATE = cCREATE))⟩
        · subst hr
          exact ⟨Or.inr ⟨pl, hmem, rfl⟩, Or.inr ⟨pc, rfl⟩,
            fun hc => hc.elim
              (fun hx => absurd hx (by decide : ¬(cUPDATE = cSUSPEND)))
              (fun hx => absurd hx (by decide : ¬(cUPDATE = cABANDON))),
            fun hx => absurd hx (by decide : ¬(cUPDATE = cCREATE))⟩
      · obtain ⟨p0, hqs, h0, hr⟩ :=
          suspendAbandonFields_some cSUSPEND (splitColon t2) r hb
        subst hr
        exact ⟨Or.inl rfl, Or.inl rfl, fun _ => ⟨rfl, rfl, rfl⟩,
          fun hx => absurd hx (by decide : ¬(cSUSPEND = cCREATE))⟩
      · obtain ⟨p0, hqs, h0, hr⟩ :=
          suspendAbandonFields_some cABANDON (splitColon t2) r hb
        subst hr
        exact ⟨Or.inl rfl, Or.inl rfl, fun _ => ⟨rfl, rfl, rfl⟩,
          fun hx => absurd hx (by decide : ¬(cABANDON = cCREATE))⟩

theorem c6_absent_marker_witness :
    (⟨cUPDATE, "myTaskB".data, [], PyVal.str [], PyVal.int 20⟩ :
        CommandRecord).priorityLevel = PyVal.str [] ∨
    ∃ pl ∈ priority_level_list,
      (⟨cUPDATE, "myTaskB".data, [], PyVal.str [], PyVal.int 20⟩ :
        CommandRecord).priorityLevel = PyVal.int pl :=
  (c6_absent_marker "/slackbot update myTaskB:::20".data _ (by decide)).2.1

/-- C7: on every input line on which shell-style tokenization fails
(unterminated or mismatched quoting), and on every input line whose
tokenization yields fewer than 3 tokens, the parse returns the empty
result. -/
theorem c7_tokenize_fail (input begins_with : List Char) :
    (tokenize input = none →
      slackbot_command_parse input begins_with = none) ∧
    (∀ ts, tokenize input = some ts → ts.length < 3 →
      slackbot_command_parse input begins_with = none) := by
  constructor
  · exact parse_eq_none_of_tokenize_none input begins_with
  · intro ts htok hlen
    rw [parse_eq_parseTokens input begins_with ts htok]
    match ts, hlen with
    | [], _ => rfl
    | [_], _ => rfl
    | [_, _], _ => rfl
    | _ :: _ :: _ :: _, hlen =>
        simp only [List.length_cons] at hlen
        omega

theorem c7_tokenize_fail_witness :
    slackbot_command_parse "/slackbot create 'myTask".data slackbotKeyword =
      none ∧
    slackbot_command_parse "/slackbot create".data slackbotKeyword = none :=
  ⟨(c7_tokenize_fail "/slackbot create 'myTask".data slackbotKeyword).1
      (by decide),
   (c7_tokenize_fail "/slackbot create".data slackbotKeyword).2
      [slackbotKeyword, cCREATE] (by decide) (by decide)⟩

/-- C8: a line whose first token is not exactly the prefix (case-sensitive, no
partial match), or whose second token is not exactly one of `create`,
`update`, `suspend`, `abandon`, parses to the empty result. -/
theorem c8_exact_match (input t0 : List Char) (rest : List (List Char))
    (htok : tokenize input = some (t0 :: rest)) :
    (t0 ≠ slackbotKeyword →
      slackbot_command_parse input slackbotKeyword = none) ∧
    (∀ t1 rest2, rest = t1 :: rest2 →
      t1 ∉ ([cCREATE, cUPDATE, cSUSPEND, cABANDON] : List (List Char)) →
      slackbot_command_parse input slackbotKeyword = none) := by
  rw [parse_eq_parseTokens input slackbotKeyword _ htok]
  constructor
  · intro hne
    match rest with
    | [] => rfl
    | [_] => rfl
    | t1 :: t2 :: tl => rw [parseTokens_cons_eq, if_neg hne]
  · intro t1 rest2 hrest hnot
    subst hrest
    simp only [List.mem_cons, List.not_mem_nil, or_false, not_or] at hnot
    obtain ⟨n1, n2, n3, n4⟩ := hnot
    match rest2 with
    | [] => rfl
    | t2 :: tl =>
        rw [parseTokens_cons_eq]
        by_cases h0 : t0 = slackbotKeyword
        · rw [if_pos h0, if_neg n1, if_neg n2, if_neg n3, if_neg n4]
        · rw [if_neg h0]

theorem c8_exact_match_witness :
    slackbot_command_parse
      "/slackbott create myTaskA:'plain vanilla task':1:10".data
      slackbotKeyword = none ∧
    slackbot_command_parse
      "/slackbot createmyTaskA:'plain vanilla task':1:10".data
      slackbotKeyword = none :=
  ⟨(c8_exact_match "/slackbott create myTaskA:'plain vanilla task':1:10".data
      "/slackbott".data
      ["create".data, "myTaskA:plain vanilla task:1:10".data]
      (by decide)).1 (by decide),
   (c8_exact_match "/slackbot createmyTaskA:'plain vanilla task':1:10".data
      slackbotKeyword ["createmyTaskA:plain vanilla task:1:10".data]
      (by decide)).2 "createmyTaskA:plain vanilla task:1:10".data []
      (by decide) (by decide)⟩

/-- C9: the parse result depends only on the first three tokens: two lines
that tokenize successfully to sequences agreeing on tokens 0, 1 and 2 parse
identically; in particular a 4th space-separated token is silently dropped and
never causes rejection by itself. -/
theorem c9_first_three_tokens (input1 input2 begins_with a b c : List Char)
    (r1 r2 : List (List Char))
    (h1 : tokenize input1 = some (a :: b :: c :: r1))
    (h2 : tokenize input2 = some (a :: b :: c :: r2)) :
    slackbot_command_parse input1 begins_with =
      slackbot_command_parse input2 begins_with := by
  rw [parse_eq_parseTokens input1 begins_with _ h1,
    parse_eq_parseTokens input2 begins_with _ h2,
    parseTokens_cons_eq, parseTokens_cons_eq]

theorem c9_first_three_tokens_witness :
    slackbot_command_parse "/slackbot abandon myTaskC".data slackbotKeyword =
    slackbot_command_parse "/slackbot abandon myTaskC extra".data
      slackbotKeyword :=
  c9_first_three_tokens "/slackbot abandon myTaskC".data
    "/slackbot abandon myTaskC extra".data slackbotKeyword
    slackbotKeyword cABANDON "myTaskC".data [] ["extra".data]
    (by decide) (by decide)

/-- C10: every returned record has a task name and a task description free of
the `:` character; even though quoting keeps colons inside one token during
tokenization, a quoted description containing a colon can never be accepted,
because the post-tokenization split on `:` raises the field count and the
parse returns the empty result. -/
theorem c10_no_colon (input : List Char) (r : CommandRecord)
    (h : slackbot_command_parse input slackbotKeyword = some r) :
    ':' ∉ r.taskName ∧ ':' ∉ r.taskDesc := by
  cases htok : tokenize input with
  | none =>
      rw [parse_eq_none_of_tokenize_none input slackbotKeyword htok] at h
      exact absurd h (by simp)
  | some ts =>
      rw [parse_eq_parseTokens input slackbotKeyword ts htok] at h
      obtain ⟨t1, t2, rest, hts, hcase⟩ := parseTokens_some ts slackbotKeyword r h
      rcases hcase with ⟨h1, hb⟩ | ⟨h1, hb⟩ | ⟨h1, hb⟩ | ⟨h1, hb⟩
      · obtain ⟨p0, p1, p2, p3, pl, pc, hqs, _, _, _, _, _, _, _, hr⟩ :=
          createFields_some (splitColon t2) r hb
        subst hr
        exact ⟨splitColon_no_colon t2 p0 (by rw [hqs]; simp),
          splitColon_no_colon t2 p1 (by rw [hqs]; simp)⟩
      · obtain ⟨p0, p1, p2, p3, pc, hqs, _, _, _, _, hcase2⟩ :=
          updateFields_some (splitColon t2) r hb
        rcases hcase2 with ⟨_, hr⟩ | ⟨pl, _, _, _, hr⟩ <;> subst hr
        · exact ⟨splitColon_no_colon t2 p0 (by rw [hqs]; simp),
            splitColon_no_colon t2 p1 (by rw [hqs]; simp)⟩
        · exact ⟨splitColon_no_colon t2 p0 (by rw [hqs]; simp),
            splitColon_no_colon t2 p1 (by rw [hqs]; simp)⟩
      · obtain ⟨p0, hqs, _, hr⟩ :=
          suspendAbandonFields_some cSUSPEND (splitColon t2) r hb
        subst hr
        exact ⟨splitColon_no_colon t2 p0 (by rw [hqs]; simp), by simp⟩
      · obtain ⟨p0, hqs, _, hr⟩ :=
          suspendAbandonFields_some cABANDON (splitColon t2) r hb
        subst hr
        exact ⟨splitColon_no_colon t2 p0 (by rw [hqs]; simp), by simp⟩

theorem c10_no_colon_witness :
    ':' ∉ (⟨cABANDON, "myTaskC".data, [], PyVal.str [], PyVal.str []⟩ :
        CommandRecord).taskName ∧
    ':' ∉ (⟨cABANDON, "myTaskC".data, [], PyVal.str [], PyVal.str []⟩ :
        CommandRecord).taskDesc :=
  c10_no_colon "/slackbot abandon myTaskC".data _ (by decide)

end Slackbot
